import Mathlib

/-!
Verification development for the websocket multi-collector.

Shallow embedding of the collector core: the fan-out planner
(`spawn_channel_chunks`), the connection lifecycle runner (`run_ws_loop`),
the outbound sender and pool (`MasterSender` / `MasterPool`), the symbol
normalization helpers (`util.rs`) and the parse functions of the registered
venue adapters.  Theorems at the end of the file settle the specified
properties against this embedding.
-/

namespace Collector

/-! ## JSON value model (`serde_json::Value`)

Numbers are modelled as integers.  This is faithful for every operation the
embedded code performs on numbers (`as_i64` succeeds exactly on integer
values, `as_str` / `as_bool` fail on numbers); no embedded code path reads a
float-valued field. -/

/-- Model of `serde_json::Value`. -/
inductive Json where
  | null : Json
  | bool (b : Bool) : Json
  | num (n : Int) : Json
  | str (s : String) : Json
  | arr (xs : List Json) : Json
  | obj (fields : List (String × Json)) : Json
deriving Inhabited

/-- `Value::get(key)`: field lookup on objects, `None` otherwise. -/
def Json.get? : Json → String → Option Json
  | .obj fields, k => (fields.find? (fun f => f.1 == k)).map (fun f => f.2)
  | _, _ => none

/-- `Value::index` (`v["k"]`): missing keys and non-objects yield `Null`. -/
def Json.idx (v : Json) (k : String) : Json :=
  (v.get? k).getD .null

/-- `Value::get(i)`: array element lookup. -/
def Json.at? : Json → Nat → Option Json
  | .arr xs, i => xs.get? i
  | _, _ => none

/-- `Value::as_str`. -/
def Json.asStr : Json → Option String
  | .str s => some s
  | _ => none

/-- `Value::as_i64` (numbers are integral in this model). -/
def Json.asInt : Json → Option Int
  | .num n => some n
  | _ => none

/-- `Value::as_bool`. -/
def Json.asBool : Json → Option Bool
  | .bool b => some b
  | _ => none

/-- `Value::as_array`. -/
def Json.asArr : Json → Option (List Json)
  | .arr xs => some xs
  | _ => none

/-! ## Canonical schema (`schema.rs`) -/

/-- `schema::TradeData`. -/
structure TradeData where
  exchange : String
  symbol : String
  timestamp : Int
  price : String
  amount : String
  side : String
deriving Repr, DecidableEq

/-- `schema::BookData`; a level `[price, amount]` is a string pair. -/
structure BookData where
  exchange : String
  symbol : String
  timestamp : Int
  asks : List (String × String)
  bids : List (String × String)
deriving Repr, DecidableEq

/-- `schema::TickerData` (reserved, not produced by any embedded adapter). -/
structure TickerData where
  exchange : String
  symbol : String
  timestamp : Int
  bid : Option String
  ask : Option String
  last : Option String
  vol_24h : Option String
deriving Repr, DecidableEq

/-- `schema::MarketMessage`. -/
inductive MarketMessage where
  | trade (t : TradeData)
  | book (b : BookData)
  | ticker (t : TickerData)
deriving Repr, DecidableEq

/-- Modelled from the spec: the tri-state `ParseOutcome` (`ParseResult` in the
code): `Market` carries exactly one canonical message, `Control` is a
harmless non-data frame, `Error` a malformed frame.  The enum declaration
itself is missing from the snapshot (`adapter.rs` still shows the older
`Option`-based contract), but the runner and all adapters except gateio
construct and match exactly these three variants. -/
inductive ParseResult where
  | market (m : MarketMessage)
  | control
  | error
deriving Repr, DecidableEq

/-! ## Symbol helpers (`util.rs`) -/

/-- `str::replace(p, r)` for a one-character pattern and replacement. -/
def replaceChar (p r : Char) (s : String) : String :=
  String.mk (s.data.map (fun c => if c = p then r else c))

/-- `str::ends_with`.  Character-based; this coincides with the byte-based
Rust code because every suffix the embedded code tests is ASCII. -/
def strEndsWith (s t : String) : Bool :=
  s.data.drop (s.data.length - t.data.length) == t.data

/-- `str::starts_with`. -/
def strStartsWith (s t : String) : Bool :=
  s.data.take t.data.length == t.data

/-- `char::to_uppercase` for the ASCII range. -/
def charUpper (c : Char) : Char :=
  if c.isLower then Char.ofNat (c.toNat - 32) else c

/-- `str::to_uppercase`. -/
def strUpper (s : String) : String :=
  String.mk (s.data.map charUpper)

/-- `&symbol[..symbol.len() - n]` (drop the last `n` characters). -/
def strDropRight (s : String) (n : Nat) : String :=
  String.mk (s.data.take (s.data.length - n))

/-- Decimal digit run for `str::parse` of an integer type: every character
must be a digit and at least one digit is required. -/
def digitsToNat? (l : List Char) : Option Nat :=
  if l = [] then none
  else l.foldl (fun acc c =>
    acc.bind (fun n => if c.isDigit then some (n * 10 + (c.toNat - 48)) else none)) (some 0)

/-- `str::parse` for signed integers: an optional leading minus sign
followed by decimal digits.  (Integer overflow of the Rust fixed-width
target type is not modelled; no claim depends on out-of-range inputs.) -/
def strToInt? (s : String) : Option Int :=
  match s.data with
  | [] => none
  | c :: cs =>
    if c = '-' then (digitsToNat? cs).map (fun n => -(n : Int))
    else (digitsToNat? (c :: cs)).map (fun n => (n : Int))

/-- `str::split(c)` on a single-character separator. -/
def splitCharAux (c : Char) : List Char → List Char → List String
  | [], acc => [String.mk acc.reverse]
  | x :: xs, acc =>
    if x = c then String.mk acc.reverse :: splitCharAux c xs []
    else splitCharAux c xs (x :: acc)

/-- `str::split(c)`, collected into a list. -/
def strSplitChar (c : Char) (s : String) : List String :=
  splitCharAux c s.data []

/-- `util::symbol_from_exchange`: venue-specific symbol to internal
`BASE/QUOTE` form. -/
def symbol_from_exchange (exchange symbol : String) : String :=
  if exchange = "gateio" then replaceChar '_' '/' symbol
  else if exchange = "mexc" then replaceChar '_' '/' symbol
  else if exchange = "binance" ∨ exchange = "binanceus" then
    -- BINANCE_QUOTES = ["USDT", "USD"]; the base must be non-empty
    if strEndsWith symbol "USDT" ∧ 4 < symbol.data.length then
      strDropRight symbol 4 ++ "/USDT"
    else if strEndsWith symbol "USD" ∧ 3 < symbol.data.length then
      strDropRight symbol 3 ++ "/USD"
    else symbol
  else if exchange = "okx" ∨ exchange = "kucoin" ∨ exchange = "coinbase" then
    replaceChar '-' '/' symbol
  else if exchange = "bybit" then
    -- same quote loop, without the non-empty base check
    if strEndsWith symbol "USDT" then strDropRight symbol 4 ++ "/USDT"
    else if strEndsWith symbol "USD" then strDropRight symbol 3 ++ "/USD"
    else symbol
  else if exchange = "bitrue" then
    if strEndsWith symbol "usdt" then strUpper (strDropRight symbol 4) ++ "/USDT"
    else if strEndsWith symbol "usd" then strUpper (strDropRight symbol 3) ++ "/USD"
    else strUpper symbol
  else symbol

/-! ## Configuration (`config.rs`) -/

/-- `config::OrderbookConfig`. -/
structure OrderbookConfig where
  depth : Nat
  update_interval_ms : Nat
deriving Repr, DecidableEq

/-- `config::ExchangePairs`. -/
structure ExchangePairs where
  trades : List String
  orderbooks : List String
deriving Repr, DecidableEq

/-- `config::ExchangeChunking`. -/
structure ExchangeChunking where
  trades_per_connection : Nat
  orderbooks_per_connection : Nat
deriving Repr, DecidableEq

/-- `config::ExchangeConfig`. -/
structure ExchangeConfig where
  name : String
  enabled : Bool
  pairs : ExchangePairs
  chunking : ExchangeChunking
  orderbook : Option OrderbookConfig
deriving Repr, DecidableEq

/-! ## Fan-out planner (`collector/runner.rs`, `spawn_channel_chunks`) -/

/-- `ChannelType` (`exchanges/adapter.rs`). -/
inductive ChannelType where
  | trades
  | orderBooks
deriving Repr, DecidableEq

/-- Body of `slice::chunks` for the positive chunk size `k + 1`:
contiguous chunks, the last one possibly shorter.  The recursion is driven
by a fuel argument so that the definition is structural (each step consumes
at least one element, so `l.length` fuel always suffices). -/
def chunksGo (k : Nat) : Nat → List α → List (List α)
  | 0, _ => []
  | _, [] => []
  | Nat.succ fuel, x :: xs => (x :: xs.take k) :: chunksGo k fuel (xs.drop k)

/-- `slice::chunks` for the positive chunk size `k + 1`. -/
def chunksAux (k : Nat) (l : List α) : List (List α) :=
  chunksGo k l.length l

/-- `slice::chunks`: `none` models the documented panic on chunk size 0. -/
def sliceChunks (k : Nat) (l : List α) : Option (List (List α)) :=
  match k with
  | 0 => none
  | Nat.succ k2 => some (chunksAux k2 l)

/-- One spawned `run_ws_loop` task: its channel and its symbol subset. -/
structure SpawnedRunner where
  channel : ChannelType
  pairs : List String
deriving Repr, DecidableEq

/-- `spawn_channel_chunks`: the planner decisions, as the list of runner
tasks spawned for one channel of one venue (metric updates and the actual
`tokio::spawn` calls carry no planning information and are omitted).
`none` models the `slice::chunks` panic on a zero chunk size. -/
def spawn_channel_chunks (cfg : ExchangeConfig) (channel : ChannelType) :
    Option (List SpawnedRunner) :=
  match channel with
  | .trades =>
    (sliceChunks cfg.chunking.trades_per_connection cfg.pairs.trades).map
      (fun cs => cs.map (fun c => SpawnedRunner.mk .trades c))
  | .orderBooks =>
    some (cfg.pairs.orderbooks.map (fun p => SpawnedRunner.mk .orderBooks [p]))

/-- `char::to_lowercase` for the ASCII range. -/
def charLower (c : Char) : Char :=
  if c.isUpper then Char.ofNat (c.toNat + 32) else c

/-- `str::to_lowercase`. -/
def strLower (s : String) : String :=
  String.mk (s.data.map charLower)

/-! ## Registered venue adapters

`exchanges::get_adapter` (mod.rs) is the registry: the venues below are the
registered ones.  (bitfinex, bitstamp, kraken and mexc have adapter source
files but are absent from the registry; bitfinex, bitstamp and kraken are
not even declared as modules.)  Every registered adapter except gateio
implements the tri-state `parse_message` returning `ParseResult`; the
gateio file still carries the older signature returning
`Option<MarketMessage>`.

Each parse function is embedded over `Option Json`: `none` stands for a raw
text frame that `serde_json::from_str` rejects, `some v` for a frame that
parses to the JSON value `v`; all further logic of every adapter operates
on the parsed `Value` only.  The ambient clock `util::now_ms()` is passed
in as `now`. -/

/-- The adapters reachable through `get_adapter`. -/
inductive AdapterId where
  | gateio
  | binanceus
  | binance
  | okx
  | bitrue
  | kucoin
  | coinbase
  | bybit
deriving Repr, DecidableEq

/-- `exchanges::get_adapter`: the name-keyed adapter registry. -/
def get_adapter (name : String) : Option AdapterId :=
  if name = "gateio" then some .gateio
  else if name = "binanceus" then some .binanceus
  else if name = "binance" then some .binance
  else if name = "okx" then some .okx
  else if name = "bitrue" then some .bitrue
  else if name = "kucoin" then some .kucoin
  else if name = "coinbase" then some .coinbase
  else if name = "bybit" then some .bybit
  else none

/-- Order-book level extraction used by gateio and bybit: keep the entries
whose first two elements are strings. -/
def pairLevelsList (xs : List Json) : List (String × String) :=
  xs.filterMap (fun x =>
    match (x.at? 0).bind Json.asStr, (x.at? 1).bind Json.asStr with
    | some p, some q => some (p, q)
    | _, _ => none)

/-- Order-book level extraction of binance / binanceus: additionally drops
levels with quantity `"0.00000000"`. -/
def binanceLevels (v : Json) : List (String × String) :=
  ((v.asArr).getD []).filterMap (fun x =>
    match (x.at? 0).bind Json.asStr, (x.at? 1).bind Json.asStr with
    | some p, some q => if q = "0.00000000" then none else some (p, q)
    | _, _ => none)

/-- `GateIoAdapter::parse_message` (gateio.rs).  Note the older contract:
the result is `Option<MarketMessage>`, so heartbeats, acks, unsupported
frames and malformed frames all collapse into `none`. -/
def gateioParse (j : Option Json) (exchange : String) (now : Int) :
    Option MarketMessage := do
  let v ← j
  let channel ← (v.get? "channel").bind Json.asStr
  let event ← (v.get? "event").bind Json.asStr
  if event ≠ "update" then none
  else if channel = "spot.trades" then do
    let r := v.idx "result"
    let cp ← (r.idx "currency_pair").asStr
    let price ← (r.idx "price").asStr
    let amount ← (r.idx "amount").asStr
    let side ← (r.idx "side").asStr
    some (.trade
    { exchange := exchange,
      symbol := symbol_from_exchange exchange cp,
      timestamp := ((r.idx "create_time_ms").asInt).getD now,
      price := price, amount := amount, side := side })
  else if channel = "spot.order_book" then do
    let r := v.idx "result"
    let asks ← (r.idx "asks").asArr
    let bids ← (r.idx "bids").asArr
    let sym ← (r.idx "s").asStr
    some (.book
    { exchange := exchange,
      symbol := symbol_from_exchange exchange sym,
      timestamp := ((r.idx "t").asInt).getD now,
      asks := pairLevelsList asks, bids := pairLevelsList bids })
  else none

/-- `BinanceAdapter::parse_message` (binance.rs). -/
def binanceParse (j : Option Json) (exchange : String) (now : Int) : ParseResult :=
  match j with
  | none => .error
  | some v =>
    if (v.get? "result").isSome then .control
    else
      let data := (v.get? "data").getD v
      match (data.get? "e").bind Json.asStr with
      | none => .control
      | some e =>
        if e = "trade" then
          .market (.trade
          { exchange := exchange,
            symbol := symbol_from_exchange exchange (((data.idx "s").asStr).getD ""),
            timestamp := ((data.idx "T").asInt).getD now,
            price := ((data.idx "p").asStr).getD "0",
            amount := ((data.idx "q").asStr).getD "0",
            side := if ((data.idx "m").asBool).getD false then "sell" else "buy" })
        else if e = "depthUpdate" then
          .market (.book
          { exchange := exchange,
            symbol := symbol_from_exchange exchange (((data.idx "s").asStr).getD ""),
            timestamp := ((data.idx "E").asInt).getD now,
            asks := binanceLevels (data.idx "a"),
            bids := binanceLevels (data.idx "b") })
        else .control

/-- `BinanceUsAdapter::parse_message` (binanceus.rs); the body is identical
to binance.rs. -/
def binanceusParse (j : Option Json) (exchange : String) (now : Int) : ParseResult :=
  match j with
  | none => .error
  | some v =>
    if (v.get? "result").isSome then .control
    else
      let data := (v.get? "data").getD v
      match (data.get? "e").bind Json.asStr with
      | none => .control
      | some e =>
        if e = "trade" then
          .market (.trade
          { exchange := exchange,
            symbol := symbol_from_exchange exchange (((data.idx "s").asStr).getD ""),
            timestamp := ((data.idx "T").asInt).getD now,
            price := ((data.idx "p").asStr).getD "0",
            amount := ((data.idx "q").asStr).getD "0",
            side := if ((data.idx "m").asBool).getD false then "sell" else "buy" })
        else if e = "depthUpdate" then
          .market (.book
          { exchange := exchange,
            symbol := symbol_from_exchange exchange (((data.idx "s").asStr).getD ""),
            timestamp := ((data.idx "E").asInt).getD now,
            asks := binanceLevels (data.idx "a"),
            bids := binanceLevels (data.idx "b") })
        else .control

/-- `OkxAdapter::parse_message` (okx.rs). -/
def okxParse (j : Option Json) (exchange : String) (now : Int) : ParseResult :=
  match j with
  | none => .error
  | some v =>
    match (v.get? "event").bind Json.asStr with
    | some e => if e = "error" then .error else .control
    | none =>
      match v.get? "arg" with
      | none => .control
      | some arg =>
        match (arg.get? "channel").bind Json.asStr with
        | none => .control
        | some channel =>
          if channel ≠ "trades" then .control
          else
            match (arg.get? "instId").bind Json.asStr with
            | none => .error
            | some instId =>
              match (v.get? "data").bind Json.asArr with
              | some (t :: _) =>
                .market (.trade
                { exchange := exchange,
                  symbol := symbol_from_exchange exchange instId,
                  timestamp := (((t.get? "ts").bind Json.asStr).bind strToInt?).getD now,
                  price := ((t.get? "px").bind Json.asStr).getD "0",
                  amount := ((t.get? "sz").bind Json.asStr).getD "0",
                  side := strLower (((t.get? "side").bind Json.asStr).getD "unknown") })
              | _ => .control

/-- `BitrueAdapter::parse_message` (bitrue.rs). -/
def bitrueParse (j : Option Json) (exchange : String) (now : Int) : ParseResult :=
  match j with
  | none => .error
  | some v =>
    match (v.get? "channel").bind Json.asStr with
    | none => .control
    | some channel =>
      if strEndsWith channel "trade_ticker" then
        match (strSplitChar '_' channel).get? 2 with
        | none => .error
        | some sym =>
          match ((v.get? "tick").bind (fun t => t.get? "data")).bind Json.asArr with
          | some (t :: _) =>
            .market (.trade
            { exchange := exchange,
              symbol := symbol_from_exchange exchange sym,
              timestamp := ((t.get? "ts").bind Json.asInt).getD now,
              price := ((t.get? "price").bind Json.asStr).getD "0",
              amount := ((t.get? "amount").bind Json.asStr).getD "0",
              side := strLower (((t.get? "side").bind Json.asStr).getD "unknown") })
          | _ => .control
      else .control

/-- `KucoinAdapter::parse_message` (kucoin.rs).  The timestamp field
`data.time` is a nanosecond string; the code divides by 1 000 000 with the
truncating integer division of Rust. -/
def kucoinParse (j : Option Json) (exchange : String) (now : Int) : ParseResult :=
  match j with
  | none => .error
  | some v =>
    match (v.get? "type").bind Json.asStr with
    | none => .control
    | some msgType =>
      if msgType ≠ "message" then .control
      else
        match (v.get? "topic").bind Json.asStr with
        | none => .control
        | some topic =>
          if strStartsWith topic "/market/match:" then
            match (strSplitChar ':' topic).get? 1 with
            | none => .error
            | some sym =>
              match v.get? "data" with
              | none => .error
              | some d =>
                .market (.trade
                { exchange := exchange,
                  symbol := symbol_from_exchange exchange sym,
                  timestamp := ((((d.get? "time").bind Json.asStr).bind strToInt?).map
                    (fun ns => Int.tdiv ns 1000000)).getD now,
                  price := ((d.get? "price").bind Json.asStr).getD "0",
                  amount := ((d.get? "size").bind Json.asStr).getD "0",
                  side := ((d.get? "side").bind Json.asStr).getD "unknown" })
          else .control

/-- The `changes` loop of the coinbase `l2update` branch: first component
collects the `buy` levels (bids), second the `sell` levels (asks), in
arrival order, skipping malformed entries and zero quantities. -/
def coinbaseChanges (changes : List Json) :
    List (String × String) × List (String × String) :=
  changes.foldl (fun acc c =>
    match (c.at? 0).bind Json.asStr with
    | none => acc
    | some side =>
      match (c.at? 1).bind Json.asStr with
      | none => acc
      | some price =>
        match (c.at? 2).bind Json.asStr with
        | none => acc
        | some qty =>
          if qty = "0" then acc
          else if side = "buy" then (acc.1 ++ [(price, qty)], acc.2)
          else if side = "sell" then (acc.1, acc.2 ++ [(price, qty)])
          else acc) ([], [])

/-- `CoinbaseAdapter::parse_message` (coinbase.rs).  Both branches stamp
the message with the local clock `util::now_ms()`. -/
def coinbaseParse (j : Option Json) (exchange : String) (now : Int) : ParseResult :=
  match j with
  | none => .error
  | some v =>
    match (v.get? "type").bind Json.asStr with
    | none => .control
    | some msgType =>
      if msgType = "match" then
        .market (.trade
        { exchange := exchange,
          symbol := symbol_from_exchange exchange
            (((v.get? "product_id").bind Json.asStr).getD ""),
          timestamp := now,
          price := ((v.get? "price").bind Json.asStr).getD "0",
          amount := ((v.get? "size").bind Json.asStr).getD "0",
          side := ((v.get? "side").bind Json.asStr).getD "unknown" })
      else if msgType = "l2update" then
        match (v.get? "product_id").bind Json.asStr with
        | none => .error
        | some productId =>
          match (v.get? "changes").bind Json.asArr with
          | none => .control
          | some changes =>
            let bs := coinbaseChanges changes
            .market (.book
            { exchange := exchange,
              symbol := symbol_from_exchange exchange productId,
              timestamp := now,
              asks := bs.2, bids := bs.1 })
      else .control

/-- `BybitAdapter::parse_message` (bybit.rs). -/
def bybitParse (j : Option Json) (exchange : String) (now : Int) : ParseResult :=
  match j with
  | none => .error
  | some v =>
    if (v.get? "op").isSome then .control
    else
      match (v.get? "topic").bind Json.asStr with
      | none => .control
      | some topic =>
        match v.get? "data" with
        | none => .control
        | some data =>
          if strStartsWith topic "publicTrade." then
            match data.asArr with
            | some (t :: _) =>
              .market (.trade
              { exchange := exchange,
                symbol := symbol_from_exchange exchange
                  (((t.get? "s").bind Json.asStr).getD ""),
                timestamp := ((t.get? "T").bind Json.asInt).getD now,
                price := ((t.get? "p").bind Json.asStr).getD "0",
                amount := ((t.get? "v").bind Json.asStr).getD "0",
                side := strLower (((t.get? "S").bind Json.asStr).getD "unknown") })
            | _ => .control
          else if strStartsWith topic "orderbook." then
            match (data.get? "s").bind Json.asStr with
            | none => .error
            | some sym =>
              .market (.book
              { exchange := exchange,
                symbol := symbol_from_exchange exchange sym,
                timestamp := ((data.get? "ts").bind Json.asInt).getD now,
                asks := pairLevelsList (((data.get? "a").bind Json.asArr).getD []),
                bids := pairLevelsList (((data.get? "b").bind Json.asArr).getD []) })
          else .control

/-! ## Connection lifecycle runner (`collector/runner.rs`, `run_ws_loop`)

`run_ws_loop` is a `loop` whose body interacts with the network.  One
iteration is embedded as a function of the outcomes the environment hands
the iteration (URL fetch, connect, the successive subscribe sends, how the
read loop ends).  The result records whether control re-enters the top of
the `loop` (after which sleep) or leaves the function, how many subscribe
sends were attempted, which pairs a subscribe was successfully sent for,
and whether the streaming read loop was entered. -/

/-- Venues that take one subscribe request per symbol; all other venues get
one batched subscribe request (the `match adapter.name()` in the loop). -/
def perSymbolSubscribe (name : String) : Bool :=
  name == "bitfinex" || name == "bitstamp"

/-- How the streaming read loop of one connection ends. -/
inductive ReadEnd where
  | closeFrame
  | readErr
  | streamEnd
deriving Repr, DecidableEq

/-- Outcomes the environment produces during one iteration of the loop. -/
structure IterEnv where
  urlFetchOk : Bool
  connectOk : Bool
  subSendOk : Nat → Bool
  readEnd : ReadEnd

/-- Whether the iteration re-enters the top of the `loop` (and after which
sleep, in seconds) or makes `run_ws_loop` return. -/
inductive LoopOutcome where
  | reconnect (delaySecs : Nat)
  | exitLoop
deriving Repr, DecidableEq

/-- Observable result of one iteration of the `run_ws_loop` body. -/
structure IterResult where
  outcome : LoopOutcome
  sendAttempts : Nat
  subscribedPairs : List String
  streamed : Bool
deriving Repr, DecidableEq

/-- Number of leading indices `i < n` with `f i = true`. -/
def leadingOk (f : Nat → Bool) (n : Nat) : Nat :=
  ((List.range n).takeWhile f).length

/-- One iteration of the `loop` in `run_ws_loop`.

* kucoin URL fetch failure: `sleep(10)` then `continue`;
* `connect_async` failure: falls through to `sleep(5)` and the next
  iteration;
* per-symbol venues (bitfinex, bitstamp): one subscribe send per pair in
  list order; the `break` on the first failed send leaves only the `for`
  loop, after which the read loop is entered anyway;
* batched venues: one subscribe send; the `break` on a failed send sits in
  a `match` arm directly inside the outer `loop`, so it terminates the
  `loop` and `run_ws_loop` returns;
* however the read loop ends (close frame, read error, stream end), control
  falls through to `sleep(5)` and the next iteration. -/
def runWsIteration (adapterName : String) (pairs : List String) (env : IterEnv) :
    IterResult :=
  if adapterName = "kucoin" ∧ env.urlFetchOk = false then
    { outcome := .reconnect 10, sendAttempts := 0, subscribedPairs := [], streamed := false }
  else if env.connectOk = false then
    { outcome := .reconnect 5, sendAttempts := 0, subscribedPairs := [], streamed := false }
  else if perSymbolSubscribe adapterName then
    let k := leadingOk env.subSendOk pairs.length
    { outcome := .reconnect 5,
      sendAttempts := if k < pairs.length then k + 1 else k,
      subscribedPairs := pairs.take k,
      streamed := true }
  else
    if env.subSendOk 0 = false then
      { outcome := .exitLoop, sendAttempts := 1, subscribedPairs := [], streamed := false }
    else
      { outcome := .reconnect 5, sendAttempts := 1, subscribedPairs := pairs, streamed := true }

/-! ## Outbound sender (`master_sender.rs`, `MasterSender`) -/

/-- The send-queue bound: `mpsc::channel::<Value>(10_000)`. -/
def senderQueueBound : Nat := 10000

/-- Producer view of one `tokio::sync::mpsc` bounded channel. -/
structure Channel where
  capacity : Nat
  buffered : List String
  closed : Bool
deriving Repr, DecidableEq

/-- `mpsc::error::TrySendError`. -/
inductive TrySendError where
  | full
  | closed
deriving Repr, DecidableEq

/-- `mpsc::Sender::try_send`. -/
def trySend (q : Channel) (m : String) : Except TrySendError Channel :=
  if q.closed then .error .closed
  else if q.capacity ≤ q.buffered.length then .error .full
  else .ok { q with buffered := q.buffered ++ [m] }

/-- The process-wide counters `MasterSender::send` could touch.  The source
of `MasterSender::send` reads or writes none of them; the state-passing
embedding makes that explicit. -/
structure Metrics where
  droppedMessages : Nat
  sendErrors : Nat
  tradesForwarded : Nat
deriving Repr, DecidableEq

/-- `MasterSender::send`: a non-blocking `try_send` on the current queue
handle.  A full queue drops the message and reports `Ok`; any other enqueue
failure is returned as an error.  (The initial `connected.get_or_init` call
initializes the cell on first use and never suspends afterwards.) -/
def MasterSender.send (q : Channel) (mets : Metrics) (m : String) :
    Except String Unit × Channel × Metrics :=
  match trySend q m with
  | .ok q2 => (.ok (), q2, mets)
  | .error .full => (.ok (), q, mets)
  | .error .closed => (.error "Send error: channel closed", q, mets)

/-! ## Send-queue generations (`MasterSender::connect_loop`)

The background task of `connect_loop` runs
`loop { swap in a fresh queue; try_connect(rx); sleep(30) }`, the writer of
`try_connect` consumes exactly the receiver created by the latest swap, and
`MasterSender::send` enqueues through the shared handle under the mutex.
The interleaving of the producer calls, the writer of the current
generation, and the swap is embedded as a step relation; transmission reads
the queue of the current generation because the writer task of a superseded
generation has already returned when the next swap happens (the background
task is sequential). -/

/-- Events of the generation system: a producer enqueue through the shared
handle, one writer dequeue-and-transmit, and the reconnect swap. -/
inductive QOp where
  | enqueue (m : String)
  | transmitStep
  | reconnectSwap
deriving Repr, DecidableEq

/-- State of one outbound sender: current queue generation, pending
messages per generation, transmitted messages tagged with the generation
they were drawn from. -/
structure SenderSys where
  gen : Nat
  pending : Nat → List String
  wire : List (Nat × String)

/-- One step of the generation system. -/
def SenderSys.step (s : SenderSys) : QOp → SenderSys
  | .enqueue m =>
    if (s.pending s.gen).length < senderQueueBound then
      { s with pending := fun g => if g = s.gen then s.pending g ++ [m] else s.pending g }
    else s
  | .transmitStep =>
    match s.pending s.gen with
    | [] => s
    | m :: rest =>
      { s with
        pending := fun g => if g = s.gen then rest else s.pending g,
        wire := s.wire ++ [(s.gen, m)] }
  | .reconnectSwap => { s with gen := s.gen + 1 }

/-- Run a sequence of steps. -/
def SenderSys.run (s : SenderSys) (ops : List QOp) : SenderSys :=
  ops.foldl SenderSys.step s

/-- Initial state: generation 0, all queues empty, nothing transmitted. -/
def SenderSys.init : SenderSys :=
  { gen := 0, pending := fun _ => [], wire := [] }

/-- States the generation system can reach from startup. -/
def SenderSys.Reachable (s : SenderSys) : Prop :=
  ∃ ops, s = SenderSys.init.run ops

/-- Transmissions on the wire that carry generation tag `g`. -/
def SenderSys.wireAt (s : SenderSys) (g : Nat) : List (Nat × String) :=
  s.wire.filter (fun e => e.1 == g)

/-! ## Outbound pool (`master_sender.rs`, `MasterPool::send`) -/

/-- Observable result of one `MasterPool::send` call: the returned status,
the sender indices tried in order, the number of backoff sleeps, and what
was written to the local stdout sink. -/
structure PoolSendResult where
  ok : Bool
  senderCalls : List Nat
  sleeps : Nat
  sink : List String
deriving Repr, DecidableEq

/-- Whether the sender at index `idx` accepts the message
(`self.senders[idx].send(msg.clone()).await.is_ok()`).  `random_range`
guarantees `idx` in range, so the default is never drawn in theorems. -/
def senderOk (senders : List Bool) (idx : Nat) : Bool :=
  senders.getD idx false

/-- The retry loop `for _ in 0..3`: `budget` attempts remain and `i` counts
the attempts already made; `pick i` is the index `random_range` draws for
attempt `i`, and `senders` records whether each sender currently accepts a
message.  Returns the status, the indices tried, and the sleep count. -/
def poolLoop (senders : List Bool) (pick : Nat → Nat) :
    Nat → Nat → Bool × List Nat × Nat
  | _, 0 => (false, [], 0)
  | i, Nat.succ b =>
    let idx := pick i
    if senderOk senders idx then (true, [idx], 0)
    else
      let r := poolLoop senders pick (i + 1) b
      (r.1, idx :: r.2.1, r.2.2 + 1)

/-- `MasterPool::send`.  In demo mode the message is printed to stdout and
the call succeeds without touching any sender.  Otherwise up to 3 attempts
are made against randomly chosen senders, with a 100 ms sleep after each
failed attempt; exhausting the budget returns the reported error
`All master connections busy`.  `none` models the `random_range` panic on
an empty sender list (`0..0` is an empty range). -/
def MasterPool.sendModel (demo : Bool) (senders : List Bool) (pick : Nat → Nat)
    (msg : String) : Option PoolSendResult :=
  if demo then some { ok := true, senderCalls := [], sleeps := 0, sink := [msg] }
  else if senders.length = 0 then none
  else
    let r := poolLoop senders pick 0 3
    some { ok := r.1, senderCalls := r.2.1, sleeps := r.2.2, sink := [] }

/-! ## Concrete inputs used by witnesses -/

/-- A gateio `spot.trades` update frame with symbolic field values. -/
def gateioTradeFrame (cp : String) (ts : Int) (p a sd : String) : Json :=
  .obj [("time", .num 0), ("channel", .str "spot.trades"), ("event", .str "update"),
        ("result", .obj [("currency_pair", .str cp), ("create_time_ms", .num ts),
                         ("price", .str p), ("amount", .str a), ("side", .str sd)])]

/-- A configuration with 9 trade symbols, 4 order-book symbols, chunk size 5. -/
def cfgNine : ExchangeConfig :=
  { name := "gateio", enabled := true,
    pairs :=
      { trades := ["A/1", "B/2", "C/3", "D/4", "E/5", "F/6", "G/7", "H/8", "I/9"],
        orderbooks := ["A/1", "B/2", "C/3", "D/4"] },
    chunking := { trades_per_connection := 5, orderbooks_per_connection := 1 },
    orderbook := none }

/-- A configuration with a non-empty trade list and chunk size 0. -/
def cfgZeroChunk : ExchangeConfig :=
  { name := "gateio", enabled := true,
    pairs := { trades := ["A/1", "B/2"], orderbooks := [] },
    chunking := { trades_per_connection := 0, orderbooks_per_connection := 1 },
    orderbook := none }

/-- A queue saturated at the configured bound of 10000 pending messages. -/
def c2FullQueue : Channel :=
  { capacity := senderQueueBound,
    buffered := List.replicate senderQueueBound "m",
    closed := false }

/-- A small saturated queue. -/
def c2SmallFull : Channel :=
  { capacity := 2, buffered := ["a", "b"], closed := false }

/-- A metrics snapshot. -/
def c2Metrics : Metrics :=
  { droppedMessages := 0, sendErrors := 0, tradesForwarded := 0 }

/-- A short history: enqueue, transmit, enqueue, then one reconnect swap. -/
def c5Ops : List QOp :=
  [.enqueue "a", .transmitStep, .enqueue "b", .reconnectSwap]

/-- The sender state reached by `c5Ops`: generation 1, message `"b"` still
pending in superseded generation 0. -/
def c5State : SenderSys :=
  SenderSys.init.run c5Ops

/-! # Theorems -/

/-! ## Chunking lemmas (`slice::chunks`) -/

theorem chunksGo_join (k : Nat) :
    ∀ (fuel : Nat) (l : List α), l.length ≤ fuel → (chunksGo k fuel l).flatten = l := by
  intro fuel
  induction fuel with
  | zero =>
    intro l hl
    have hnil : l = [] := List.eq_nil_of_length_eq_zero (Nat.le_zero.mp hl)
    subst hnil
    simp [chunksGo]
  | succ fuel ih =>
    intro l hl
    cases l with
    | nil => simp [chunksGo]
    | cons x xs =>
      simp only [List.length_cons] at hl
      have hlen : (xs.drop k).length ≤ fuel := by
        simp only [List.length_drop]
        omega
      simp only [chunksGo, List.flatten_cons]
      rw [ih _ hlen]
      simp [List.cons_append, List.take_append_drop]

theorem chunksGo_length (k : Nat) :
    ∀ (fuel : Nat) (l : List α), l.length ≤ fuel →
      (chunksGo k fuel l).length = (l.length + k) / (k + 1) := by
  intro fuel
  induction fuel with
  | zero =>
    intro l hl
    have hnil : l = [] := List.eq_nil_of_length_eq_zero (Nat.le_zero.mp hl)
    subst hnil
    simp [chunksGo, Nat.div_eq_of_lt (Nat.lt_succ_self k)]
  | succ fuel ih =>
    intro l hl
    cases l with
    | nil => simp [chunksGo, Nat.div_eq_of_lt (Nat.lt_succ_self k)]
    | cons x xs =>
      simp only [List.length_cons] at hl
      have hlen : (xs.drop k).length ≤ fuel := by
        simp only [List.length_drop]
        omega
      simp only [chunksGo, List.length_cons]
      rw [ih _ hlen]
      simp only [List.length_drop]
      rcases le_or_lt k xs.length with hk | hk
      · rw [Nat.sub_add_cancel hk]
        have h2 : xs.length + 1 + k = xs.length + (k + 1) := by omega
        rw [h2, Nat.add_div_right _ (Nat.succ_pos k)]
      · have h1 : xs.length - k = 0 := by omega
        rw [h1]
        have h2 : (0 + k) / (k + 1) = 0 := by
          rw [Nat.zero_add]
          exact Nat.div_eq_of_lt (Nat.lt_succ_self k)
        rw [h2]
        have h3 : xs.length + 1 + k = (k + 1) + xs.length := by omega
        rw [h3, Nat.add_div_left _ (Nat.succ_pos k), Nat.div_eq_of_lt (by omega)]

theorem chunksGo_mem (k : Nat) :
    ∀ (fuel : Nat) (l : List α) (c : List α), l.length ≤ fuel →
      c ∈ chunksGo k fuel l → 0 < c.length ∧ c.length ≤ k + 1 := by
  intro fuel
  induction fuel with
  | zero =>
    intro l c _ hc
    simp [chunksGo] at hc
  | succ fuel ih =>
    intro l c hl hc
    cases l with
    | nil => simp [chunksGo] at hc
    | cons x xs =>
      simp only [List.length_cons] at hl
      simp only [chunksGo, List.mem_cons] at hc
      rcases hc with rfl | hc
      · refine ⟨by simp, ?_⟩
        simp only [List.length_cons, List.length_take]
        have := Nat.min_le_left k xs.length
        omega
      · exact ih (xs.drop k) c (by simp only [List.length_drop]; omega) hc

theorem chunksGo_get (k : Nat) :
    ∀ (fuel : Nat) (l : List α) (i : Nat) (c : List α), l.length ≤ fuel →
      (chunksGo k fuel l).get? i = some c →
      i + 1 < (chunksGo k fuel l).length → c.length = k + 1 := by
  intro fuel
  induction fuel with
  | zero =>
    intro l i c _ hg _
    simp [chunksGo] at hg
  | succ fuel ih =>
    intro l i c hl hg hi
    cases l with
    | nil => simp [chunksGo] at hg
    | cons x xs =>
      simp only [List.length_cons] at hl
      have hxs : (xs.drop k).length ≤ fuel := by
        simp only [List.length_drop]
        omega
      cases i with
      | zero =>
        simp only [chunksGo, List.get?_cons_zero] at hg
        simp only [chunksGo, List.length_cons] at hi
        have hne : xs.drop k ≠ [] := by
          intro hnil
          rw [hnil] at hi
          cases fuel <;> simp [chunksGo] at hi
        have hklen : k < xs.length := by
          by_contra hle
          push_neg at hle
          exact hne (List.drop_eq_nil_of_le hle)
        obtain rfl : x :: xs.take k = c := Option.some.inj hg
        simp only [List.length_cons, List.length_take]
        have := Nat.min_eq_left (Nat.le_of_lt hklen)
        omega
      | succ i =>
        simp only [chunksGo, List.get?_cons_succ] at hg
        simp only [chunksGo, List.length_cons] at hi
        exact ih (xs.drop k) i c hxs hg (by omega)

/-! ## Claims about the fan-out planner -/

/-- C6: for the Trades channel with chunk size `k > 0` and `n` configured
symbols, the planner spawns exactly `ceil(n / k)` runner tasks, the chunks
concatenate back to the configured list in order, every chunk is non-empty
and at most `k` long, and every chunk except possibly the last has length
exactly `k`. -/
theorem trades_fanout_spec (cfg : ExchangeConfig)
    (hk : 0 < cfg.chunking.trades_per_connection) :
    ∃ rs, spawn_channel_chunks cfg .trades = some rs ∧
      rs.length = (cfg.pairs.trades.length + cfg.chunking.trades_per_connection - 1)
        / cfg.chunking.trades_per_connection ∧
      (rs.map SpawnedRunner.pairs).flatten = cfg.pairs.trades ∧
      (∀ r ∈ rs, r.channel = .trades ∧ 0 < r.pairs.length ∧
        r.pairs.length ≤ cfg.chunking.trades_per_connection) ∧
      (∀ i c, (rs.map SpawnedRunner.pairs).get? i = some c →
        i + 1 < rs.length → c.length = cfg.chunking.trades_per_connection) := by
  obtain ⟨k2, hk2⟩ : ∃ k2, cfg.chunking.trades_per_connection = k2 + 1 :=
    ⟨cfg.chunking.trades_per_connection - 1, by omega⟩
  rw [hk2]
  refine ⟨(chunksAux k2 cfg.pairs.trades).map (fun c => SpawnedRunner.mk .trades c),
    ?_, ?_, ?_, ?_, ?_⟩
  · simp [spawn_channel_chunks, sliceChunks, hk2]
  · simp only [List.length_map, chunksAux]
    rw [chunksGo_length k2 _ _ (Nat.le_refl _)]
    congr 1
  · rw [List.map_map]
    have hcomp : (SpawnedRunner.pairs ∘ fun c => SpawnedRunner.mk .trades c) = id := rfl
    rw [hcomp, List.map_id]
    exact chunksGo_join k2 _ _ (Nat.le_refl _)
  · intro r hr
    obtain ⟨c, hc, rfl⟩ := List.mem_map.mp hr
    obtain ⟨h1, h2⟩ := chunksGo_mem k2 _ _ c (Nat.le_refl _) hc
    exact ⟨rfl, h1, h2⟩
  · intro i c hgc hi
    rw [List.map_map] at hgc
    have hcomp : (SpawnedRunner.pairs ∘ fun c => SpawnedRunner.mk .trades c) = id := rfl
    rw [hcomp, List.map_id] at hgc
    rw [List.length_map] at hi
    exact chunksGo_get k2 _ _ i c (Nat.le_refl _) hgc hi

/-- C6 witness: 9 trade symbols with chunk size 5 yield exactly 2 streams
whose chunks concatenate back to the configured list (hence sized 5 and 4). -/
theorem trades_fanout_spec_witness :
    0 < cfgNine.chunking.trades_per_connection ∧
    ∃ rs, spawn_channel_chunks cfgNine .trades = some rs ∧
      rs.length = 2 ∧ (rs.map SpawnedRunner.pairs).flatten = cfgNine.pairs.trades := by
  refine ⟨by decide, ?_⟩
  obtain ⟨rs, h1, h2, h3, _, _⟩ := trades_fanout_spec cfgNine (by decide)
  have harith : (cfgNine.pairs.trades.length + cfgNine.chunking.trades_per_connection - 1)
      / cfgNine.chunking.trades_per_connection = 2 := by decide
  exact ⟨rs, h1, h2.trans harith, h3⟩

/-- C7: for the OrderBooks channel the planner spawns exactly one runner
per configured symbol, in configuration order, each carrying exactly one
symbol. -/
theorem orderbook_fanout_spec (cfg : ExchangeConfig) :
    ∃ rs, spawn_channel_chunks cfg .orderBooks = some rs ∧
      rs.length = cfg.pairs.orderbooks.length ∧
      (rs.map SpawnedRunner.pairs).flatten = cfg.pairs.orderbooks ∧
      ∀ r ∈ rs, r.channel = .orderBooks ∧ r.pairs.length = 1 := by
  refine ⟨cfg.pairs.orderbooks.map (fun p => SpawnedRunner.mk .orderBooks [p]),
    rfl, by simp, ?_, ?_⟩
  · rw [List.map_map]
    have hcomp : (SpawnedRunner.pairs ∘ fun p => SpawnedRunner.mk .orderBooks [p]) =
        (fun p => [p]) := rfl
    rw [hcomp]
    induction cfg.pairs.orderbooks with
    | nil => rfl
    | cons p ps ih => simp [ih]
  · intro r hr
    obtain ⟨p, _, rfl⟩ := List.mem_map.mp hr
    exact ⟨rfl, rfl⟩

/-- C10: spawning trade streams requires a positive chunk size: with
`trades_per_connection = 0` and a non-empty trade list the planner hits the
`slice::chunks` panic (modelled as `none`) and spawns nothing, while any
positive chunk size never panics. -/
theorem trades_fanout_chunk_size_guard :
    (∀ cfg : ExchangeConfig, cfg.chunking.trades_per_connection = 0 →
      cfg.pairs.trades ≠ [] → spawn_channel_chunks cfg .trades = none) ∧
    (∀ cfg : ExchangeConfig, 0 < cfg.chunking.trades_per_connection →
      (spawn_channel_chunks cfg .trades).isSome = true) := by
  constructor
  · intro cfg h0 _
    simp [spawn_channel_chunks, sliceChunks, h0]
  · intro cfg hk
    obtain ⟨k2, hk2⟩ : ∃ k2, cfg.chunking.trades_per_connection = k2 + 1 :=
      ⟨cfg.chunking.trades_per_connection - 1, by omega⟩
    simp [spawn_channel_chunks, sliceChunks, hk2]

/-- C10 witness: chunk size 0 with two configured trade symbols panics;
chunk size 5 with nine symbols spawns. -/
theorem trades_fanout_chunk_size_guard_witness :
    spawn_channel_chunks cfgZeroChunk .trades = none ∧
    (spawn_channel_chunks cfgNine .trades).isSome = true :=
  ⟨trades_fanout_chunk_size_guard.1 cfgZeroChunk rfl (by decide),
   trades_fanout_chunk_size_guard.2 cfgNine (by decide)⟩

/-! ## Claims about the connection lifecycle runner -/

/-- C1: the claim that `run_ws_loop` never terminates fails on the batched
subscribe path.  Evaluating one loop iteration for a batched-subscribe
venue (here gateio) whose connection succeeds but whose subscribe send
fails shows the `break` leaving the outer `loop`: the iteration result is
`exitLoop`, i.e. `run_ws_loop` returns and the connection identity is never
reconnected. -/
theorem run_ws_loop_exits_on_batch_subscribe_failure :
    (runWsIteration "gateio" ["BTC/USDT"]
      { urlFetchOk := true, connectOk := true, subSendOk := fun _ => false,
        readEnd := .streamEnd }).outcome = .exitLoop := by
  decide

/-- C3: for a per-symbol-subscribe venue (here bitstamp) whose first
subscribe send fails, the iteration aborts the remaining sends
(`sendAttempts = 1`, no pair subscribed) but then still enters the
streaming read loop (`streamed = true`) instead of forcing an immediate
reconnect, contrary to the claim. -/
theorem per_symbol_subscribe_failure_enters_streaming :
    runWsIteration "bitstamp" ["BTC/USD", "ETH/USD"]
      { urlFetchOk := true, connectOk := true, subSendOk := fun _ => false,
        readEnd := .streamEnd } =
      { outcome := .reconnect 5, sendAttempts := 1, subscribedPairs := [],
        streamed := true } := by
  decide

/-! ## Claims about the outbound sender -/

/-- C2 counterexample: enqueueing into a queue saturated at the bound of
10000 returns `Ok`, leaves the queue unchanged, and increments no drop
counter — the counter stays 0 instead of becoming 1 as the claim states. -/
theorem master_sender_full_queue_drop_not_counted :
    (MasterSender.send c2FullQueue c2Metrics "extra").1 = .ok () ∧
    (MasterSender.send c2FullQueue c2Metrics "extra").2.1 = c2FullQueue ∧
    (MasterSender.send c2FullQueue c2Metrics "extra").2.2.droppedMessages = 0 ∧
    ¬ (MasterSender.send c2FullQueue c2Metrics "extra").2.2.droppedMessages =
        c2Metrics.droppedMessages + 1 := by
  have hfull : trySend c2FullQueue "extra" = .error .full := by
    simp [trySend, c2FullQueue, List.length_replicate]
  refine ⟨?_, ?_, ?_, ?_⟩ <;> simp [MasterSender.send, hfull, c2Metrics]

/-- C2 (amended): `MasterSender::send` never blocks; on a full queue it
returns `Ok`, enqueues nothing and touches no counter; on a non-full open
queue it enqueues the message; a closed channel (the only other
`try_send` failure) is returned to the caller as an error. -/
theorem master_sender_send_spec (q : Channel) (mets : Metrics) (m : String) :
    (q.closed = false → q.capacity ≤ q.buffered.length →
      MasterSender.send q mets m = (.ok (), q, mets)) ∧
    (q.closed = false → q.buffered.length < q.capacity →
      MasterSender.send q mets m =
        (.ok (), { q with buffered := q.buffered ++ [m] }, mets)) ∧
    (q.closed = true →
      MasterSender.send q mets m =
        (.error "Send error: channel closed", q, mets)) := by
  refine ⟨?_, ?_, ?_⟩
  · intro h1 h2
    simp [MasterSender.send, trySend, h1, h2]
  · intro h1 h2
    simp [MasterSender.send, trySend, h1, Nat.not_le.mpr h2]
  · intro h1
    simp [MasterSender.send, trySend, h1]

/-- C2 witness: the amended behavior at a concrete saturated queue. -/
theorem master_sender_send_spec_witness :
    c2SmallFull.closed = false ∧
    c2SmallFull.capacity ≤ c2SmallFull.buffered.length ∧
    MasterSender.send c2SmallFull c2Metrics "x" = (.ok (), c2SmallFull, c2Metrics) :=
  ⟨rfl, by decide,
   (master_sender_send_spec c2SmallFull c2Metrics "x").1 rfl (by decide)⟩

/-! ## Claims about the adapter parse contract -/

/-- Malformed raw frames (text `serde_json::from_str` rejects) degrade to
the `Error` outcome for every registered tri-state adapter. -/
theorem registered_parsers_error_on_malformed (exchange : String) (now : Int) :
    binanceParse none exchange now = .error ∧
    binanceusParse none exchange now = .error ∧
    okxParse none exchange now = .error ∧
    bitrueParse none exchange now = .error ∧
    kucoinParse none exchange now = .error ∧
    coinbaseParse none exchange now = .error ∧
    bybitParse none exchange now = .error :=
  ⟨rfl, rfl, rfl, rfl, rfl, rfl, rfl⟩

/-- C8: the claim fails for the registered gateio adapter.  Its
`parse_message` still has the older `Option<MarketMessage>` signature, so a
malformed frame produces `None` — no `Error` outcome exists for it and the
call does not resolve to one of the three `ParseResult` states. -/
theorem gateio_malformed_frame_has_no_error_outcome :
    get_adapter "gateio" = some AdapterId.gateio ∧
    gateioParse none "gateio" 0 = none :=
  ⟨rfl, rfl⟩

/-- C9: for any gateio `spot.trades` update frame, the parsed canonical
message carries the price, amount and side strings exactly as they appear
in the frame, the `create_time_ms` value as the timestamp, and as symbol
the currency pair of the frame with every underscore replaced by a slash;
whenever the currency pair contains an underscore the resulting symbol
contains the slash separator, and it never retains an underscore. -/
theorem gateio_trade_parse_spec (cp p a sd : String) (ts now : Int) :
    gateioParse (some (gateioTradeFrame cp ts p a sd)) "gateio" now =
      some (.trade
        { exchange := "gateio", symbol := replaceChar '_' '/' cp,
          timestamp := ts, price := p, amount := a, side := sd }) ∧
    ('_' ∈ cp.data → '/' ∈ (replaceChar '_' '/' cp).data) ∧
    '_' ∉ (replaceChar '_' '/' cp).data := by
  refine ⟨rfl, ?_, ?_⟩
  · intro h
    simp only [replaceChar]
    exact List.mem_map.mpr ⟨'_', h, by decide⟩
  · intro h
    simp only [replaceChar] at h
    obtain ⟨c, hc, hfc⟩ := List.mem_map.mp h
    by_cases hcu : c = '_'
    · simp [hcu] at hfc
    · rw [if_neg hcu] at hfc
      exact hcu hfc

/-- C9 witness: the parse of a concrete frame. -/
theorem gateio_trade_parse_spec_witness :
    ('_' ∈ "BTC_USDT".data) ∧
    gateioParse (some (gateioTradeFrame "BTC_USDT" 1700000000123 "65000.1" "0.002" "buy"))
        "gateio" 42 =
      some (.trade
        { exchange := "gateio", symbol := "BTC/USDT", timestamp := 1700000000123,
          price := "65000.1", amount := "0.002", side := "buy" }) ∧
    '/' ∈ "BTC/USDT".data := by
  have h := gateio_trade_parse_spec "BTC_USDT" "65000.1" "0.002" "buy" 1700000000123 42
  have hm : '_' ∈ "BTC_USDT".data := by decide
  have hrepl : replaceChar '_' '/' "BTC_USDT" = "BTC/USDT" := by decide
  refine ⟨hm, ?_, ?_⟩
  · rw [h.1, hrepl]
  · have hs := h.2.1 hm
    rw [hrepl] at hs
    exact hs

/-! ## Claims about the outbound pool -/

theorem poolLoop_calls_length (senders : List Bool) (pick : Nat → Nat) :
    ∀ (b i : Nat), (poolLoop senders pick i b).2.1.length ≤ b := by
  intro b
  induction b with
  | zero => intro i; simp [poolLoop]
  | succ b ih =>
    intro i
    simp only [poolLoop]
    split
    · simp
    · simp only [List.length_cons]
      exact Nat.succ_le_succ (ih (i + 1))

/-- C4: in demo mode `MasterPool::send` succeeds unconditionally, writes
the message only to the local stdout sink and touches no sender.  With
`demo = false` and at least one sender, at most 3 attempts are made; if the
senders drawn for all three attempts fail, the call returns the reported
error after 3 attempts and 3 backoff sleeps; if the sender drawn for
attempt `j` is the first to accept, the call returns success immediately
after `j + 1` attempts. -/
theorem master_pool_send_spec (senders : List Bool) (pick : Nat → Nat) (msg : String) :
    (MasterPool.sendModel true senders pick msg =
      some { ok := true, senderCalls := [], sleeps := 0, sink := [msg] }) ∧
    (senders ≠ [] →
      ∃ r, MasterPool.sendModel false senders pick msg = some r ∧
        r.senderCalls.length ≤ 3 ∧ r.sink = [] ∧
        ((∀ i, i < 3 → senderOk senders (pick i) = false) →
          r = { ok := false, senderCalls := [pick 0, pick 1, pick 2],
                sleeps := 3, sink := [] }) ∧
        (∀ j, j < 3 → (∀ i, i < j → senderOk senders (pick i) = false) →
          senderOk senders (pick j) = true →
          r = { ok := true, senderCalls := (List.range (j + 1)).map pick,
                sleeps := j, sink := [] })) := by
  constructor
  · simp [MasterPool.sendModel]
  · intro hne
    have hlen : ¬ senders.length = 0 := by
      simpa [List.length_eq_zero] using hne
    refine ⟨{ ok := (poolLoop senders pick 0 3).1,
              senderCalls := (poolLoop senders pick 0 3).2.1,
              sleeps := (poolLoop senders pick 0 3).2.2, sink := [] },
      ?_, poolLoop_calls_length senders pick 3 0, rfl, ?_, ?_⟩
    · simp [MasterPool.sendModel, hlen]
    · intro hall
      have h0 := hall 0 (by omega)
      have h1 := hall 1 (by omega)
      have h2 := hall 2 (by omega)
      simp [poolLoop, h0, h1, h2]
    · intro j hj hbefore hsucc
      interval_cases j
      · simp [poolLoop, hsucc, List.range_succ]
      · have h0 := hbefore 0 (by omega)
        simp [poolLoop, h0, hsucc, List.range_succ]
      · have h0 := hbefore 0 (by omega)
        have h1 := hbefore 1 (by omega)
        simp [poolLoop, h0, h1, hsucc, List.range_succ]

/-- C4 witness: a single failing sender against constant random draws. -/
theorem master_pool_send_spec_witness :
    (([false] : List Bool) ≠ []) ∧
    (∃ r, MasterPool.sendModel false [false] (fun _ => 0) "x" = some r ∧
      r.senderCalls.length ≤ 3 ∧ r.sink = []) := by
  refine ⟨by decide, ?_⟩
  obtain ⟨r, h1, h2, h3, _, _⟩ :=
    (master_pool_send_spec [false] (fun _ => 0) "x").2 (by decide)
  exact ⟨r, h1, h2, h3⟩

/-! ## Claims about send-queue generations -/

theorem SenderSys.step_gen_enqueue (s : SenderSys) (m : String) :
    (s.step (.enqueue m)).gen = s.gen := by
  simp only [SenderSys.step]
  split <;> rfl

theorem SenderSys.step_gen_transmit (s : SenderSys) :
    (s.step .transmitStep).gen = s.gen := by
  simp only [SenderSys.step]
  cases h : s.pending s.gen <;> rfl

theorem SenderSys.step_gen_swap (s : SenderSys) :
    (s.step .reconnectSwap).gen = s.gen + 1 := rfl

theorem SenderSys.step_gen_le (s : SenderSys) (op : QOp) : s.gen ≤ (s.step op).gen := by
  cases op with
  | enqueue m => rw [s.step_gen_enqueue m]
  | transmitStep => rw [s.step_gen_transmit]
  | reconnectSwap => rw [s.step_gen_swap]; omega

theorem SenderSys.step_pending_ne (s : SenderSys) (op : QOp) (g : Nat) (hg : g ≠ s.gen) :
    (s.step op).pending g = s.pending g := by
  cases op with
  | enqueue m =>
    simp only [SenderSys.step]
    split
    · simp [hg]
    · rfl
  | transmitStep =>
    simp only [SenderSys.step]
    cases h : s.pending s.gen with
    | nil => rfl
    | cons m rest => simp [hg]
  | reconnectSwap => rfl

theorem SenderSys.step_wireAt_lt (s : SenderSys) (op : QOp) (g : Nat) (hg : g < s.gen) :
    (s.step op).wireAt g = s.wireAt g := by
  cases op with
  | enqueue m =>
    simp only [SenderSys.step]
    split <;> rfl
  | transmitStep =>
    simp only [SenderSys.step]
    cases h : s.pending s.gen with
    | nil => rfl
    | cons m rest =>
      simp only [SenderSys.wireAt, List.filter_append]
      have hne : (s.gen == g) = false := by
        simp only [beq_eq_false_iff_ne, ne_eq]
        omega
      simp [hne]
  | reconnectSwap => rfl

theorem SenderSys.run_gen_le (ops : List QOp) :
    ∀ s : SenderSys, s.gen ≤ (s.run ops).gen := by
  induction ops with
  | nil => intro s; exact Nat.le_refl _
  | cons op ops ih =>
    intro s
    exact Nat.le_trans (s.step_gen_le op) (ih (s.step op))

theorem SenderSys.run_wireAt_lt (ops : List QOp) :
    ∀ (s : SenderSys) (g : Nat), g < s.gen → (s.run ops).wireAt g = s.wireAt g := by
  induction ops with
  | nil => intro s g _; rfl
  | cons op ops ih =>
    intro s g hg
    have hg2 : g < (s.step op).gen := Nat.lt_of_lt_of_le hg (s.step_gen_le op)
    exact (ih (s.step op) g hg2).trans (s.step_wireAt_lt op g hg)

theorem SenderSys.run_pending_lt (ops : List QOp) :
    ∀ (s : SenderSys) (g : Nat), g < s.gen → (s.run ops).pending g = s.pending g := by
  induction ops with
  | nil => intro s g _; rfl
  | cons op ops ih =>
    intro s g hg
    have hg2 : g < (s.step op).gen := Nat.lt_of_lt_of_le hg (s.step_gen_le op)
    exact (ih (s.step op) g hg2).trans (s.step_pending_ne op g (Nat.ne_of_lt hg))

/-- Queues of generations newer than the current one hold nothing yet. -/
def SenderSys.FutureEmpty (s : SenderSys) : Prop :=
  ∀ g, s.gen < g → s.pending g = []

theorem SenderSys.step_future (s : SenderSys) (op : QOp) (h : s.FutureEmpty) :
    (s.step op).FutureEmpty := by
  cases op with
  | enqueue m =>
    intro g hg
    rw [s.step_gen_enqueue m] at hg
    rw [s.step_pending_ne (.enqueue m) g (by omega)]
    exact h g hg
  | transmitStep =>
    intro g hg
    rw [s.step_gen_transmit] at hg
    rw [s.step_pending_ne .transmitStep g (by omega)]
    exact h g hg
  | reconnectSwap =>
    intro g hg
    rw [s.step_gen_swap] at hg
    rw [s.step_pending_ne .reconnectSwap g (by omega)]
    exact h g (by omega)

theorem SenderSys.run_future (ops : List QOp) :
    ∀ s : SenderSys, s.FutureEmpty → (s.run ops).FutureEmpty := by
  induction ops with
  | nil => intro s h; exact h
  | cons op ops ih => intro s h; exact ih (s.step op) (s.step_future op h)

theorem SenderSys.reachable_future (s : SenderSys) (hs : s.Reachable) :
    s.FutureEmpty := by
  obtain ⟨ops, rfl⟩ := hs
  exact SenderSys.run_future ops SenderSys.init (fun g _ => rfl)

/-- C5: generation monotonicity and isolation.  For any reachable sender
state and any superseded generation `g` (one below the current), no further
interleaving of enqueues, writer transmissions and reconnect swaps ever
transmits from generation `g` (its wire entries stay exactly as they are)
or alters its pending queue; the reconnect swap installs a brand-new empty
queue as the new current generation; and an enqueue touches exactly the
queue handle that is current at send time. -/
theorem sender_queue_generation_spec (s : SenderSys) (hs : s.Reachable)
    (ops : List QOp) (g : Nat) (hg : g < s.gen) :
    s.gen ≤ (s.run ops).gen ∧
    (s.run ops).wireAt g = s.wireAt g ∧
    (s.run ops).pending g = s.pending g ∧
    (s.step .reconnectSwap).pending ((s.step .reconnectSwap).gen) = [] ∧
    (∀ m g2, g2 ≠ s.gen → (s.step (.enqueue m)).pending g2 = s.pending g2) := by
  refine ⟨SenderSys.run_gen_le ops s, SenderSys.run_wireAt_lt ops s g hg,
    SenderSys.run_pending_lt ops s g hg, ?_, ?_⟩
  · rw [s.step_gen_swap, s.step_pending_ne .reconnectSwap (s.gen + 1) (by omega)]
    exact s.reachable_future hs (s.gen + 1) (by omega)
  · intro m g2 hne
    exact s.step_pending_ne (.enqueue m) g2 hne

/-- C5 witness: after one reconnect swap, a message left pending in the
superseded generation 0 never reaches the wire under further operations. -/
theorem sender_queue_generation_spec_witness :
    0 < c5State.gen ∧
    (c5State.run [.enqueue "c", .transmitStep]).wireAt 0 = c5State.wireAt 0 ∧
    (c5State.run [.enqueue "c", .transmitStep]).pending 0 = c5State.pending 0 := by
  have h := sender_queue_generation_spec c5State ⟨c5Ops, rfl⟩
    [.enqueue "c", .transmitStep] 0 (by decide)
  exact ⟨by decide, h.2.1, h.2.2.1⟩

end Collector
